import Mathlib

/-
Verification of the Audra request-dispatch core (EvieePy/Audra).

This file gives a shallow embedding of the parts of the repository that the
routing, middleware, lifecycle and response claims are about:

- src/audra/converters.py : converter registry (BASE_CONVERTERS, patterns)
- src/audra/routes.py     : PARAM_RE template scanning, Route.compile_path,
                            Route.match, Route.update_converters,
                            Router.add_route, Router.resolve_path,
                            Route._build_middleware, Route.invoke guard,
                            Route.__call__ return-value adaptation
- src/audra/application.py: Audra._build_middleware, Audra._lifespan_handler
- src/audra/responses.py  : _BaseResponse._process_headers and __call__
- src/audra/headers.py    : dict-with-casefolded-keys header store
- src/audra/utils.py      : FALSEY_RESP

Python dictionaries are embedded as insertion-ordered association lists
(List (String × V)) with first-match lookup and replace-or-append update,
which agrees with CPython dict semantics when keys are unique (the only case
the code produces).  The regular-expression engine of the Python re module is
external to the repository, so a compiled path automaton is carried as its
regex source string and route matching takes the engine as an explicit
function parameter (re : regexSource → input → Option groupdict); everything
the claims need is independent of that parameter or is decided before it is
consulted.
-/

/-- Python dict lookup: first entry with the given key. -/
def dictGet {α : Type} : List (String × α) → String → Option α
  | [], _ => none
  | e :: es, k => if e.1 = k then some e.2 else dictGet es k

/-- Python dict item assignment: replace the (first) entry with the given key
in place, or append a new entry at the end. -/
def dictSet {α : Type} : List (String × α) → String → α → List (String × α)
  | [], k, v => [(k, v)]
  | e :: es, k, v => if e.1 = k then (k, v) :: es else e :: dictSet es k v

/-- Python dict.update(other): assign every item of other, in order. -/
def dictUpdate {α : Type} (d other : List (String × α)) : List (String × α) :=
  other.foldl (fun acc e => dictSet acc e.1 e.2) d

/-- The keys of an embedded dict, in order. -/
def dictKeys {α : Type} (d : List (String × α)) : List String :=
  d.map Prod.fst

@[simp] theorem dictKeys_nil {α : Type} : dictKeys ([] : List (String × α)) = [] := rfl

@[simp] theorem dictKeys_cons {α : Type} (e : String × α) (es : List (String × α)) :
    dictKeys (e :: es) = e.1 :: dictKeys es := rfl

theorem dictGet_dictSet_self {α : Type} (d : List (String × α)) (k : String) (v : α) :
    dictGet (dictSet d k v) k = some v := by
  induction d with
  | nil => simp [dictGet, dictSet]
  | cons e es ih =>
    by_cases h : e.1 = k
    · simp [dictSet, h, dictGet]
    · simp [dictSet, h, dictGet, ih]

theorem dictGet_dictSet_ne {α : Type} (d : List (String × α)) (k k' : String) (v : α)
    (h : k' ≠ k) : dictGet (dictSet d k v) k' = dictGet d k' := by
  have h' : ¬(k = k') := fun hh => h hh.symm
  induction d with
  | nil => simp [dictGet, dictSet, h']
  | cons e es ih =>
    by_cases he : e.1 = k
    · rw [show dictSet (e :: es) k v = (k, v) :: es by simp [dictSet, he]]
      simp only [dictGet, he, h', if_false]
    · rw [show dictSet (e :: es) k v = e :: dictSet es k v by simp [dictSet, he]]
      simp only [dictGet]
      by_cases he' : e.1 = k'
      · simp [he']
      · simp [he', ih]

theorem dictGet_eq_none_of_not_mem {α : Type} (d : List (String × α)) (k : String)
    (h : k ∉ dictKeys d) : dictGet d k = none := by
  induction d with
  | nil => rfl
  | cons e es ih =>
    simp only [dictKeys_cons, List.mem_cons, not_or] at h
    simp only [dictGet, show ¬(e.1 = k) from fun hh => h.1 hh.symm, if_false]
    exact ih h.2

theorem mem_dictKeys_dictSet {α : Type} (d : List (String × α)) (k a : String) (v : α) :
    a ∈ dictKeys (dictSet d k v) ↔ a ∈ dictKeys d ∨ a = k := by
  induction d with
  | nil => simp [dictSet]
  | cons e es ih =>
    by_cases h : e.1 = k
    · rw [show dictSet (e :: es) k v = (k, v) :: es by simp [dictSet, h]]
      simp only [dictKeys_cons, List.mem_cons, h]
      tauto
    · rw [show dictSet (e :: es) k v = e :: dictSet es k v by simp [dictSet, h]]
      simp only [dictKeys_cons, List.mem_cons, ih]
      tauto

theorem nodup_dictKeys_dictSet {α : Type} (d : List (String × α)) (k : String) (v : α)
    (h : (dictKeys d).Nodup) : (dictKeys (dictSet d k v)).Nodup := by
  induction d with
  | nil => simp [dictSet]
  | cons e es ih =>
    simp only [dictKeys_cons, List.nodup_cons] at h
    by_cases he : e.1 = k
    · rw [show dictSet (e :: es) k v = (k, v) :: es by simp [dictSet, he]]
      simp only [dictKeys_cons, List.nodup_cons]
      exact ⟨he ▸ h.1, h.2⟩
    · rw [show dictSet (e :: es) k v = e :: dictSet es k v by simp [dictSet, he]]
      simp only [dictKeys_cons, List.nodup_cons]
      refine ⟨fun hmem => ?_, ih h.2⟩
      rcases (mem_dictKeys_dictSet es k e.1 v).mp hmem with h1 | h1
      · exact h.1 h1
      · exact he h1

theorem dictGet_dictUpdate {α : Type} (o : List (String × α)) :
    ∀ (d : List (String × α)) (k : String), (dictKeys o).Nodup →
      dictGet (dictUpdate d o) k =
        match dictGet o k with
        | some v => some v
        | none => dictGet d k := by
  induction o with
  | nil => intro d k _; rfl
  | cons e es ih =>
    intro d k ho
    simp only [dictKeys_cons, List.nodup_cons] at ho
    have step : dictUpdate d (e :: es) = dictUpdate (dictSet d e.1 e.2) es := rfl
    rw [step, ih (dictSet d e.1 e.2) k ho.2]
    by_cases hk : e.1 = k
    · have hnone : dictGet es k = none :=
        dictGet_eq_none_of_not_mem es k (hk ▸ ho.1)
      simp only [dictGet, hk, if_true, hnone]
      exact hk ▸ dictGet_dictSet_self d e.1 e.2
    · simp only [dictGet, hk, if_false]
      cases h : dictGet es k with
      | some v => rfl
      | none =>
        simp only []
        exact dictGet_dictSet_ne d e.1 k e.2 (fun h' => hk h'.symm)

theorem nodup_dictKeys_dictUpdate {α : Type} (o : List (String × α)) :
    ∀ d : List (String × α), (dictKeys d).Nodup → (dictKeys (dictUpdate d o)).Nodup := by
  induction o with
  | nil => intro d hd; exact hd
  | cons e es ih => intro d hd; exact ih (dictSet d e.1 e.2) (nodup_dictKeys_dictSet d e.1 e.2 hd)

/-! ## Converters (src/audra/converters.py)

A converter is identified by its class; StrConverter and IntConverter are the
two base converters, and user converters are carried with their tag and
pattern.  convert embeds StrConverter.convert (str) and IntConverter.convert
(int on a digit string); the behaviour of user converters is outside the
repository and is never evaluated by a claim. -/

inductive Converter where
  | strConv : Converter
  | intConv : Converter
  | custom (tag : String) (pat : String) : Converter
deriving DecidableEq, Repr

/-- Converter.pattern class attribute. -/
def Converter.pat : Converter → String
  | .strConv => "[^/]+"
  | .intConv => "[\\d]+"
  | .custom _ p => p

/-- A converted path-parameter value. -/
inductive Value where
  | str (s : String) : Value
  | int (n : Nat) : Value
deriving DecidableEq, Repr

/-- convert: StrConverter returns str(value), IntConverter int(value)
(its regex only admits digit strings, on which int is the numeric value). -/
def Converter.convert : Converter → String → Value
  | .strConv, v => .str v
  | .intConv, v => .int ((v.toNat?).getD 0)
  | .custom _ _, v => .str v

/-- BASE_CONVERTERS from converters.py. -/
def BASE_CONVERTERS : List (String × Converter) :=
  [("str", Converter.strConv), ("int", Converter.intConv)]

/-! ## PARAM_RE and compile_path (src/audra/routes.py)

PARAM_RE is the literal pattern
(?P<parameter>\.\{\s*(?P<name>[a-zA-Z_][A-Za-z0-9_\-]*)\s*(\:?\s*(?P<annot>[a-zA-Z_][A-Za-z0-9_\-]*)?\s*)\})\/?
(braces written here descriptively).  Its character classes for the name and
the type tag are disjoint from whitespace, colon and the closing brace, so
greedy maximal-munch scanning with no backtracking computes exactly the same
matches as the re module; finditer scans left to right, restarting one
character later after a failed attempt and after the end of a match
otherwise. -/

def isParamNameStart (c : Char) : Bool :=
  (('a' ≤ c ∧ c ≤ 'z') ∨ ('A' ≤ c ∧ c ≤ 'Z') ∨ c = '_')

def isParamNameChar (c : Char) : Bool :=
  isParamNameStart c ∨ ('0' ≤ c ∧ c ≤ '9') ∨ c = '-'

def isPyWs (c : Char) : Bool :=
  c = ' ' ∨ c = '\t' ∨ c = '\n' ∨ c = '\r' ∨ c = '\x0b' ∨ c = '\x0c'

def dropPyWs : List Char → List Char
  | [] => []
  | c :: cs => if isPyWs c then dropPyWs cs else c :: cs

/-- Greedily read a maximal name of the PARAM_RE name charset. -/
def readParamName : List Char → Option (String × List Char)
  | [] => none
  | c :: cs =>
    if isParamNameStart c then
      let rec go : List Char → List Char × List Char
        | [] => ([], [])
        | d :: ds => if isParamNameChar d then
            let (tk, rest) := go ds
            (d :: tk, rest)
          else ([], d :: ds)
      let (tk, rest) := go cs
      some (String.mk (c :: tk), rest)
    else none

/-- Try to match PARAM_RE at the head of the character list.  On success
return the parameter name, the optional type tag and the remainder after the
match (a slash directly after the closing brace is consumed by the match). -/
def matchParamAt (cs : List Char) : Option (String × Option String × List Char) :=
  match cs with
  | '\x7b' :: rest =>
    let rest := dropPyWs rest
    match readParamName rest with
    | none => none
    | some (nm, rest) =>
      let rest := dropPyWs rest
      let rest := match rest with
        | ':' :: r => dropPyWs r
        | r => r
      let (ann, rest) :=
        match readParamName rest with
        | some (a, r) => (some a, dropPyWs r)
        | none => ((none : Option String), rest)
      match rest with
      | '\x7d' :: '/' :: r => some (nm, ann, r)
      | '\x7d' :: r => some (nm, ann, r)
      | _ => none
  | _ => none

/-- One PARAM_RE match: start offset, end offset (after the optional slash),
name and optional type tag. -/
structure ParamOcc where
  startIdx : Nat
  endIdx : Nat
  name : String
  ann : Option String
deriving DecidableEq, Repr

/-- PARAM_RE.finditer over the template, with fuel (the template length
suffices: every step consumes at least one character). -/
def finditerAux : Nat → List Char → Nat → List ParamOcc
  | 0, _, _ => []
  | _ + 1, [], _ => []
  | fuel + 1, c :: cs, i =>
    match matchParamAt (c :: cs) with
    | some (nm, ann, rest) =>
      let consumed := (c :: cs).length - rest.length
      ⟨i, i + consumed, nm, ann⟩ :: finditerAux fuel rest (i + consumed)
    | none => finditerAux fuel cs (i + 1)

def paramFinditer (s : String) : List ParamOcc :=
  finditerAux (s.toList.length + 1) s.toList 0

/-- re.escape: backslash-escape the characters that are special in a
regular expression (the Python >= 3.7 set). -/
def reEscapeChar (c : Char) : List Char :=
  if c = '(' ∨ c = ')' ∨ c = '[' ∨ c = ']' ∨ c = '\x7b' ∨ c = '\x7d' ∨
     c = '?' ∨ c = '*' ∨ c = '+' ∨ c = '-' ∨ c = '|' ∨ c = '^' ∨ c = '$' ∨
     c = '\\' ∨ c = '.' ∨ c = '&' ∨ c = '~' ∨ c = '#' ∨ isPyWs c
  then ['\\', c] else [c]

def reEscape (s : String) : String :=
  String.mk (s.toList.flatMap reEscapeChar)

/-- Python slice path[i:j] on the embedded string. -/
def strSlice (s : String) (i j : Nat) : String :=
  String.mk ((s.toList.drop i).take (j - i))

/-- str.removesuffix for a one-character suffix. -/
def removeSlashSuffix (s : String) : String :=
  if s.toList.getLast? = some '/' then String.mk (s.toList.dropLast) else s

/-- The compiled Path dataclass: raw path, regex source of the compiled
matcher, and the name-to-converter map collected while compiling. -/
structure CompiledPath where
  path : String
  regexSrc : String
  converters : List (String × Converter)
deriving DecidableEq, Repr

/-- Route.compile_path: scan the template with PARAM_RE; for each marker emit
the escaped literal segment (trailing slash normalised), a named capture
with the converter pattern for the (default "str") type tag, falling back to
StrConverter for unknown tags; append the literal suffix and anchor. -/
def compilePath (convs : List (String × Converter)) (path : String) : CompiledPath :=
  let step := fun (st : Nat × String × List (String × Converter)) (occ : ParamOcc) =>
    let (index, regex, cmap) := st
    let escaped := reEscape (strSlice path index occ.startIdx)
    let tag := (occ.ann).getD "str"
    let conv := (dictGet convs tag).getD Converter.strConv
    let cmap := dictSet cmap occ.name conv
    let regex := regex ++ removeSlashSuffix escaped ++ "/" ++
      "(?P<" ++ occ.name ++ ">" ++ conv.pat ++ ")"
    (occ.endIdx, regex, cmap)
  let (index, regex, cmap) := (paramFinditer path).foldl step (0, "^", [])
  let regex := regex ++ strSlice path index path.toList.length ++ "$"
  { path := path, regexSrc := regex, converters := cmap }

/-! ## Route and Router (src/audra/routes.py) -/

/-- The Route attributes that routing reads: _raw_path, _methods (a set,
carried as the construction-order list), _converters, _path, _has_router. -/
structure Route where
  rawPath : String
  methods : List String
  converters : List (String × Converter)
  path : CompiledPath
  hasRouter : Bool
deriving DecidableEq, Repr

/-- str.upper on the ASCII alphabet (HTTP method names are ASCII). -/
def pyUpperChar (c : Char) : Char :=
  if 'a' ≤ c ∧ c ≤ 'z' then Char.ofNat (c.toNat - 32) else c

def pyUpper (s : String) : String :=
  String.mk (s.toList.map pyUpperChar)

/-- str.casefold on the ASCII alphabet (header names are ASCII). -/
def pyLowerChar (c : Char) : Char :=
  if 'A' ≤ c ∧ c ≤ 'Z' then Char.ofNat (c.toNat + 32) else c

def pyLower (s : String) : String :=
  String.mk (s.toList.map pyLowerChar)

/-- Route.__init__: uppercase the methods, add HEAD when GET is present,
merge the declared converters over BASE_CONVERTERS, compile the path. -/
def mkRoute (path : String) (methods : List String)
    (convs : List (String × Converter)) : Route :=
  let ms := methods.map pyUpper
  let ms := if "GET" ∈ ms then ms ++ ["HEAD"] else ms
  let conv := dictUpdate BASE_CONVERTERS convs
  { rawPath := path
    methods := ms
    converters := conv
    path := compilePath conv path
    hasRouter := false }

/-- The three-valued result of Route.match: True, False, None. -/
inductive MatchResult where
  | full : MatchResult
  | noMatch : MatchResult
  | methodMismatch : MatchResult
deriving DecidableEq, Repr

abbrev Params := List (String × Value)

/-- Route.match.  The re parameter is the external regex engine applied to
the compiled regex source; it returns the groupdict on a match.  A literal
path equal to the raw template short-circuits before the engine is
consulted; otherwise the engine decides structure and the stored converters
run on the captured groups only on a full match. -/
def Route.matchPath (re : String → String → Option (List (String × String)))
    (r : Route) (path method : String) : MatchResult × Params :=
  if path = r.rawPath then
    (if method ∈ r.methods then (.full, []) else (.methodMismatch, []))
  else
    match re r.path.regexSrc path with
    | none => (.noMatch, [])
    | some groups =>
      if method ∈ r.methods then
        (.full, groups.map fun g =>
          (g.1, ((dictGet r.path.converters g.1).getD Converter.strConv).convert g.2))
      else (.methodMismatch, [])

/-- Router state: _routes and _converters. -/
structure Router where
  routes : List Route
  converters : List (String × Converter)
deriving DecidableEq, Repr

/-- RouteAlreadyExists raised by Router.add_route on a re-attached route. -/
inductive RouteAlreadyExists where
  | routeAlreadyExists : RouteAlreadyExists
deriving DecidableEq, Repr

/-- Route.update_converters(converters): write the route entries into the
passed (router-owned) dict in place, pull the updated dict back into the
route dict, and recompile the path — the source calls compile_path but does
not assign the result (routes.py line 112), so the stored _path is kept;
the embedding keeps the call with its result discarded. -/
def Route.updateConverters (routerConv : List (String × Converter)) (r : Route) :
    List (String × Converter) × Route :=
  let routerConv := dictUpdate routerConv r.converters
  let rConv := dictUpdate r.converters routerConv
  let _discarded := compilePath rConv r.rawPath
  (routerConv, { r with converters := rConv })

/-- Router.add_route: reject a route that already has a router, merge
converters, append, and mark the route attached. -/
def Router.addRoute (ro : Router) (r : Route) : Except RouteAlreadyExists Router :=
  if r.hasRouter then .error .routeAlreadyExists
  else
    let (conv, r) := Route.updateConverters ro.converters r
    let r := { r with hasRouter := true }
    .ok { routes := ro.routes ++ [r], converters := conv }

/-- HTTPMethodNotAllowed with its Allow header contents (the method set of
the route it is raised for). -/
structure HTTPMethodNotAllowed where
  allow : List String
deriving DecidableEq, Repr

/-- The loop of Router.resolve_path: walk the routes in registration order
with the pending partial-match route (overwritten on every METHOD_MISMATCH);
return the first full match at once, raise method-not-allowed from the
pending route when the walk ends with one, else report no route. -/
def resolveGo (re : String → String → Option (List (String × String)))
    (path method : String) :
    List Route → Option Route → Except HTTPMethodNotAllowed (Option (Route × Params))
  | [], pending =>
    match pending with
    | some q => .error ⟨q.methods⟩
    | none => .ok none
  | r :: rest, pending =>
    match Route.matchPath re r path method with
    | (.full, ps) => .ok (some (r, ps))
    | (.methodMismatch, _) => resolveGo re path method rest (some r)
    | (.noMatch, _) => resolveGo re path method rest pending

/-- Router.resolve_path on the request path and method. -/
def Router.resolvePath (re : String → String → Option (List (String × String)))
    (ro : Router) (path method : String) :
    Except HTTPMethodNotAllowed (Option (Route × Params)) :=
  resolveGo re path method ro.routes none

/-- A regex engine that never matches; used for witnesses whose routes are
resolved entirely by the literal fast path, which never consults the
engine. -/
def reNone : String → String → Option (List (String × String)) := fun _ _ => none

/-! ## Routing lemmas -/

theorem resolveGo_first_full (re : String → String → Option (List (String × String)))
    (path method : String) (r : Route) (rs₂ : List Route)
    (h₂ : (Route.matchPath re r path method).1 = .full) :
    ∀ (rs₁ : List Route) (p : Option Route),
      (∀ q ∈ rs₁, (Route.matchPath re q path method).1 ≠ .full) →
      resolveGo re path method (rs₁ ++ r :: rs₂) p =
        .ok (some (r, (Route.matchPath re r path method).2)) := by
  intro rs₁
  induction rs₁ with
  | nil =>
    intro p _
    rcases hm : Route.matchPath re r path method with ⟨m, ps⟩
    rw [hm] at h₂
    simp at h₂
    subst h₂
    simp [resolveGo, hm]
  | cons q t ih =>
    intro p h₁
    have hq : (Route.matchPath re q path method).1 ≠ .full := h₁ q (List.mem_cons_self q t)
    have ht : ∀ x ∈ t, (Route.matchPath re x path method).1 ≠ .full :=
      fun x hx => h₁ x (List.mem_cons_of_mem q hx)
    rcases hmq : Route.matchPath re q path method with ⟨mq, psq⟩
    rw [hmq] at hq
    simp at hq
    cases mq with
    | full => exact absurd rfl hq
    | methodMismatch =>
      show resolveGo re path method (q :: (t ++ r :: rs₂)) p = _
      simp only [resolveGo, hmq]
      exact ih (some q) ht
    | noMatch =>
      show resolveGo re path method (q :: (t ++ r :: rs₂)) p = _
      simp only [resolveGo, hmq]
      exact ih p ht

/-- The update performed on the pending partial-match variable by one loop
iteration of Router.resolve_path. -/
def updatePending (re : String → String → Option (List (String × String)))
    (path method : String) (p : Option Route) (r : Route) : Option Route :=
  if (Route.matchPath re r path method).1 = .methodMismatch then some r else p

theorem resolveGo_no_full (re : String → String → Option (List (String × String)))
    (path method : String) :
    ∀ (rs : List Route) (p : Option Route),
      (∀ q ∈ rs, (Route.matchPath re q path method).1 ≠ .full) →
      resolveGo re path method rs p =
        match rs.foldl (updatePending re path method) p with
        | some q => .error ⟨q.methods⟩
        | none => .ok none := by
  intro rs
  induction rs with
  | nil => intro p _; rfl
  | cons q t ih =>
    intro p h
    have hq : (Route.matchPath re q path method).1 ≠ .full := h q (List.mem_cons_self q t)
    have ht : ∀ x ∈ t, (Route.matchPath re x path method).1 ≠ .full :=
      fun x hx => h x (List.mem_cons_of_mem q hx)
    rcases hmq : Route.matchPath re q path method with ⟨mq, psq⟩
    rw [hmq] at hq
    simp at hq
    have hfold : (q :: t).foldl (updatePending re path method) p =
        t.foldl (updatePending re path method) (updatePending re path method p q) := rfl
    rw [hfold]
    cases mq with
    | full => exact absurd rfl hq
    | methodMismatch =>
      have hup : updatePending re path method p q = some q := by
        simp [updatePending, hmq]
      rw [hup]
      simp only [resolveGo, hmq]
      exact ih (some q) ht
    | noMatch =>
      have hup : updatePending re path method p q = p := by
        simp [updatePending, hmq]
      rw [hup]
      simp only [resolveGo, hmq]
      exact ih p ht

theorem getLast?_cons_match {α : Type} (a : α) (l : List α) :
    (a :: l).getLast? =
      match l.getLast? with
      | some x => some x
      | none => some a := by
  induction l generalizing a with
  | nil => rfl
  | cons b t ih =>
    rw [List.getLast?_cons_cons, ih b]
    cases h : t.getLast? with
    | some x => rfl
    | none => rfl

theorem foldl_updatePending_eq_getLast
    (re : String → String → Option (List (String × String))) (path method : String) :
    ∀ (rs : List Route) (p : Option Route),
      rs.foldl (updatePending re path method) p =
        match (rs.filter
            (fun q => (Route.matchPath re q path method).1 = .methodMismatch)).getLast? with
        | some q => some q
        | none => p := by
  intro rs
  induction rs with
  | nil => intro p; rfl
  | cons q t ih =>
    intro p
    by_cases hq : (Route.matchPath re q path method).1 = .methodMismatch
    · rw [show (q :: t).foldl (updatePending re path method) p =
          t.foldl (updatePending re path method) (some q) by
        simp [List.foldl_cons, updatePending, hq]]
      rw [ih (some q)]
      rw [List.filter_cons_of_pos (by simp [hq]), getLast?_cons_match]
      cases hlast : (t.filter
          (fun x => (Route.matchPath re x path method).1 = .methodMismatch)).getLast? with
      | some x => rfl
      | none => rfl
    · rw [show (q :: t).foldl (updatePending re path method) p =
          t.foldl (updatePending re path method) p by
        simp [List.foldl_cons, updatePending, hq]]
      rw [ih p]
      rw [List.filter_cons_of_neg (by simp [hq])]

/-! ## Claim theorems: routing -/

/-- Claim C2: Router.resolve_path iterates the registered routes in
registration (insertion) order and returns the first route reporting a FULL
match immediately, with that route's extracted parameters; in particular,
when every route registered before r fails to report FULL and r reports
FULL, r is the resolved route, so of two full-matching routes the earlier
one always wins. -/
theorem resolvePath_returns_first_full_match
    (re : String → String → Option (List (String × String)))
    (conv : List (String × Converter)) (rs₁ rs₂ : List Route) (r : Route)
    (path method : String)
    (h₁ : ∀ q ∈ rs₁, (Route.matchPath re q path method).1 ≠ .full)
    (h₂ : (Route.matchPath re r path method).1 = .full) :
    Router.resolvePath re ⟨rs₁ ++ r :: rs₂, conv⟩ path method =
      .ok (some (r, (Route.matchPath re r path method).2)) :=
  resolveGo_first_full re path method r rs₂ h₂ rs₁ none h₁

theorem resolvePath_returns_first_full_match_witness :
    Router.resolvePath reNone
        ⟨[mkRoute "/x" ["GET"] [], mkRoute "/x" ["POST"] []], BASE_CONVERTERS⟩ "/x" "POST" =
      .ok (some (mkRoute "/x" ["POST"] [],
        (Route.matchPath reNone (mkRoute "/x" ["POST"] []) "/x" "POST").2)) :=
  resolvePath_returns_first_full_match reNone BASE_CONVERTERS
    [mkRoute "/x" ["GET"] []] [] (mkRoute "/x" ["POST"] []) "/x" "POST"
    (by decide) (by decide)

/-- The two-route router of the C1 scenario, built through add_route:
route A = GET /x registered first, route B = POST /x second. -/
def routerStepC1 : Except RouteAlreadyExists Router :=
  (Router.addRoute ⟨[], BASE_CONVERTERS⟩ (mkRoute "/x" ["GET"] [])).bind
    (fun ro => Router.addRoute ro (mkRoute "/x" ["POST"] []))

def exRouterC1 : Router :=
  match routerStepC1 with
  | .ok ro => ro
  | .error _ => ⟨[], []⟩

/-- Claim C1, counterexample: with route A = GET /x registered before route
B = POST /x, resolving DELETE /x raises method-not-allowed carrying the
methods of B, the LAST structurally matching route, not the methods
["GET", "HEAD"] of the first one as the claim demands: the loop of
Router.resolve_path overwrites its pending partial-match variable on every
METHOD_MISMATCH (routes.py lines 308-309), so the final raise reads the last
mismatching route. -/
theorem resolvePath_allow_header_not_first_mismatch :
    routerStepC1 = .ok exRouterC1 ∧
    Router.resolvePath reNone exRouterC1 "/x" "DELETE" = .error ⟨["POST"]⟩ ∧
    (mkRoute "/x" ["GET"] []).methods = ["GET", "HEAD"] ∧
    HTTPMethodNotAllowed.mk ["POST"] ≠ HTTPMethodNotAllowed.mk ["GET", "HEAD"] :=
  ⟨rfl, rfl, by decide, by decide⟩

/-- Claim C1 as amended: when no route reports FULL and at least one route
reports METHOD_MISMATCH, resolution raises method-not-allowed whose
Allow-list is the method set of the LAST mismatching route in registration
order (the loop overwrites the pending route on each mismatch). -/
theorem resolvePath_method_not_allowed_last_mismatch
    (re : String → String → Option (List (String × String)))
    (conv : List (String × Converter)) (rs : List Route) (path method : String)
    (r : Route)
    (hnf : ∀ q ∈ rs, (Route.matchPath re q path method).1 ≠ .full)
    (hlast : (rs.filter
        (fun q => (Route.matchPath re q path method).1 = .methodMismatch)).getLast?
      = some r) :
    Router.resolvePath re ⟨rs, conv⟩ path method = .error ⟨r.methods⟩ := by
  show resolveGo re path method rs none = _
  rw [resolveGo_no_full re path method rs none hnf,
    foldl_updatePending_eq_getLast re path method rs none, hlast]

theorem resolvePath_method_not_allowed_last_mismatch_witness :
    Router.resolvePath reNone exRouterC1 "/x" "DELETE" =
      .error ⟨((exRouterC1.routes.getLast?).getD (mkRoute "" [] [])).methods⟩ ∧
    ((exRouterC1.routes.getLast?).getD (mkRoute "" [] [])).methods = ["POST"] :=
  ⟨resolvePath_method_not_allowed_last_mismatch reNone exRouterC1.converters
      exRouterC1.routes "/x" "DELETE"
      ((exRouterC1.routes.getLast?).getD (mkRoute "" [] []))
      (by decide) (by decide),
    by decide⟩

/-- Claim C9: for a route whose raw template contains parameter markers,
matching a request path that is literally equal to the raw template
short-circuits on string equality before the compiled automaton or any
converter is consulted (the conclusion holds for every regex engine re and
ignores the stored converters), returning FULL with an empty parameter map
when the method is allowed and METHOD_MISMATCH otherwise. -/
theorem matchPath_literal_template_shortcut
    (re : String → String → Option (List (String × String)))
    (r : Route) (method : String)
    (hmarkers : paramFinditer r.rawPath ≠ []) :
    Route.matchPath re r r.rawPath method =
      (if method ∈ r.methods then ((.full : MatchResult), ([] : Params))
       else (.methodMismatch, [])) := by
  unfold Route.matchPath
  rw [if_pos rfl]

theorem matchPath_literal_template_shortcut_witness :
    paramFinditer "/items/\x7bid:int\x7d" ≠ [] ∧
    Route.matchPath reNone (mkRoute "/items/\x7bid:int\x7d" ["GET"] [])
        "/items/\x7bid:int\x7d" "GET" = (.full, []) ∧
    Route.matchPath reNone (mkRoute "/items/\x7bid:int\x7d" ["GET"] [])
        "/items/\x7bid:int\x7d" "DELETE" = (.methodMismatch, []) :=
  ⟨by decide,
    (matchPath_literal_template_shortcut reNone
      (mkRoute "/items/\x7bid:int\x7d" ["GET"] []) "GET" (by decide)).trans (by decide),
    (matchPath_literal_template_shortcut reNone
      (mkRoute "/items/\x7bid:int\x7d" ["GET"] []) "DELETE" (by decide)).trans (by decide)⟩

/-! ## Claim theorems: converter merging -/

def specialConv : Converter := .custom "special" "[a-z]+"

def routerC8 : Router := ⟨[], [("special", specialConv)]⟩

def routeC8 : Route := mkRoute "/x/\x7bid:special\x7d" ["GET"] []

def routerC8' : Router :=
  match Router.addRoute routerC8 routeC8 with
  | .ok ro => ro
  | .error _ => ⟨[], []⟩

def routeC8' : Route := (routerC8'.routes.getLast?).getD routeC8

/-- Claim C8 (code bug, evaluated at the failing input): the router supplies
a converter for tag "special" and the route path is /x/(id:special).  After
add_route the merged converter dict of the route does map "special" to the
router converter, and recompiling the raw path with the merged dict would
bind id to it; but Route.update_converters calls compile_path and discards
the result (routes.py line 112 has no assignment, despite the comment
saying the Path is updated), so the stored compiled path still binds id to
the StrConverter fallback chosen at construction time. -/
theorem addRoute_keeps_stale_compiled_path :
    Router.addRoute routerC8 routeC8 = .ok routerC8' ∧
    routeC8'.path = routeC8.path ∧
    dictGet routeC8'.path.converters "id" = some Converter.strConv ∧
    dictGet routeC8'.converters "special" = some specialConv ∧
    dictGet (compilePath routeC8'.converters routeC8'.rawPath).converters "id" =
      some specialConv ∧
    specialConv ≠ Converter.strConv :=
  ⟨rfl, by decide, by decide, by decide, by decide, by decide⟩

/-- Claim C10: Router.add_route writes the route's converter entries —
including the base defaults merged at construction — into the router's
converter dict (converters.update(self._converters) mutates the router's
dict object in place), so after add_route every entry of the route's dict is
present in the router's dict and is seen as a default by routes added
later. -/
theorem addRoute_writes_route_converters_into_router
    (rs : List Route) (rconv : List (String × Converter)) (path : String)
    (methods : List String) (uconv : List (String × Converter))
    (k : String) (v : Converter)
    (hk : dictGet (mkRoute path methods uconv).converters k = some v) :
    ∃ ro' : Router,
      Router.addRoute ⟨rs, rconv⟩ (mkRoute path methods uconv) = .ok ro' ∧
      ro'.converters = dictUpdate rconv (mkRoute path methods uconv).converters ∧
      dictGet ro'.converters k = some v := by
  have hconv : (mkRoute path methods uconv).converters =
      dictUpdate BASE_CONVERTERS uconv := rfl
  have hnodup : (dictKeys (mkRoute path methods uconv).converters).Nodup := by
    rw [hconv]
    exact nodup_dictKeys_dictUpdate uconv BASE_CONVERTERS (by decide)
  refine ⟨⟨rs ++
      [Route.mk (Route.updateConverters rconv (mkRoute path methods uconv)).2.rawPath
        (Route.updateConverters rconv (mkRoute path methods uconv)).2.methods
        (Route.updateConverters rconv (mkRoute path methods uconv)).2.converters
        (Route.updateConverters rconv (mkRoute path methods uconv)).2.path
        true],
    (Route.updateConverters rconv (mkRoute path methods uconv)).1⟩, rfl, rfl, ?_⟩
  show dictGet (dictUpdate rconv (mkRoute path methods uconv).converters) k = some v
  have h := dictGet_dictUpdate (mkRoute path methods uconv).converters rconv k hnodup
  rw [hk] at h
  exact h

theorem addRoute_writes_route_converters_into_router_witness :
    ∃ ro' : Router,
      Router.addRoute ⟨[], [("special", specialConv)]⟩ (mkRoute "/y" ["GET"] []) = .ok ro' ∧
      ro'.converters = dictUpdate [("special", specialConv)] (mkRoute "/y" ["GET"] []).converters ∧
      dictGet ro'.converters "int" = some Converter.intConv :=
  addRoute_writes_route_converters_into_router [] [("special", specialConv)]
    "/y" ["GET"] [] "int" Converter.intConv (by decide)

/-! ## Middleware chain building (routes.py Route._build_middleware,
application.py Audra._build_middleware)

A chain node carries its identity (its repr), whether it is a Middleware
(has a load hook and a loaded flag) or a plain ASGIMiddleware (no hook),
its loaded flag, whether its on_load hook raises, a ghost counter of hook
executions, and its successor pointer (None before assignment).  The
builders walk the declared list in reverse, run the hook of each not-yet
loaded Middleware, link each node to the previously built one, and return
the final node as the entry point; a hook failure raises
MiddlewareLoadException whose message interpolates prev (the previously
linked node, the terminal at the first step) and, for the route builder,
the owning route. -/

inductive SuccPtr where
  | mw (name : String) : SuccPtr
  | terminal : SuccPtr
deriving DecidableEq, Repr

inductive MwKind where
  | middleware : MwKind
  | asgi : MwKind
deriving DecidableEq, Repr

structure MwNode where
  name : String
  kind : MwKind
  hasLoaded : Bool
  loadFails : Bool
  loadCount : Nat
  app : Option SuccPtr
deriving DecidableEq, Repr

/-- The data interpolated into the MiddlewareLoadException message: the
node repr written as the failed one (the source passes prev), and the
owning route for the route-level builder (the application-level message
names no owner). -/
structure MiddlewareLoadException where
  identified : SuccPtr
  owner : Option String
deriving DecidableEq, Repr

/-- The shared reverse walk: processing the head of the list last mirrors
iterating the Python list with reversed(...). -/
def buildChain (owner : Option String) :
    List MwNode → Except MiddlewareLoadException (List MwNode × SuccPtr)
  | [] => .ok ([], .terminal)
  | m :: rest =>
    match buildChain owner rest with
    | .error e => .error e
    | .ok (rest₀, prev) =>
      if m.kind = .middleware ∧ m.hasLoaded = false then
        if m.loadFails then .error ⟨prev, owner⟩
        else .ok (MwNode.mk m.name m.kind true m.loadFails (m.loadCount + 1) (some prev)
          :: rest₀, .mw m.name)
      else .ok (MwNode.mk m.name m.kind m.hasLoaded m.loadFails m.loadCount (some prev)
        :: rest₀, .mw m.name)

/-- The chain-relevant state of a Route: _middleware, app, __has_loaded__. -/
structure RouteMwState where
  mws : List MwNode
  app : Option SuccPtr
  hasLoaded : Bool
deriving DecidableEq, Repr

/-- Route._build_middleware: build the chain over the terminal (the route
itself), store the entry point in self.app and set __has_loaded__. -/
def Route.buildMiddleware (routeName : String) (s : RouteMwState) :
    Except MiddlewareLoadException RouteMwState :=
  match buildChain (some routeName) s.mws with
  | .error e => .error e
  | .ok (mws, entry) => .ok { mws := mws, app := some entry, hasLoaded := true }

/-- The guard at the top of Route.invoke (and Route.on_load): build the
chain only when __has_loaded__ is still false. -/
def Route.ensureChainBuilt (routeName : String) (s : RouteMwState) :
    Except MiddlewareLoadException RouteMwState :=
  if s.hasLoaded then .ok s else Route.buildMiddleware routeName s

/-- The ExceptionMiddleware prepended by Audra._build_middleware; its
on_load is the Middleware default no-op. -/
def exceptionMiddleware : MwNode :=
  ⟨"ExceptionMiddleware", .middleware, false, false, 0, none⟩

/-- Audra._build_middleware: ExceptionMiddleware ++ class middleware (empty)
++ user middleware, walked in reverse over the router as terminal; the
failure message names prev only, with no owner. -/
def Audra.buildMiddleware (user : List MwNode) :
    Except MiddlewareLoadException (List MwNode × SuccPtr) :=
  buildChain none (exceptionMiddleware :: user)

theorem buildChain_idem (owner : Option String) :
    ∀ (ms ms' : List MwNode) (e : SuccPtr),
      buildChain owner ms = .ok (ms', e) → buildChain owner ms' = .ok (ms', e) := by
  intro ms
  induction ms with
  | nil =>
    intro ms' e h
    simp only [buildChain, Except.ok.injEq, Prod.mk.injEq] at h
    rw [← h.1, ← h.2]
    rfl
  | cons m rest ih =>
    intro ms' e h
    obtain ⟨nm, kd, hl, lf, lc, ap⟩ := m
    cases hr : buildChain owner rest with
    | error err => simp only [buildChain, hr] at h; exact absurd h (by simp)
    | ok pr =>
      obtain ⟨rest₀, prev⟩ := pr
      have hrest : buildChain owner rest₀ = .ok (rest₀, prev) := ih rest₀ prev hr
      simp only [buildChain, hr] at h
      split at h
      case isTrue hc =>
        split at h
        case isTrue hlf => exact absurd h (by simp)
        case isFalse hlf =>
          simp only [Except.ok.injEq, Prod.mk.injEq] at h
          obtain ⟨hms', he⟩ := h
          subst hms'
          subst he
          simp [buildChain, hrest]
      case isFalse hc =>
        simp only [Except.ok.injEq, Prod.mk.injEq] at h
        obtain ⟨hms', he⟩ := h
        subst hms'
        subst he
        simp only [buildChain, hrest]
        rw [if_neg (by simpa using hc)]

/-- Claim C4: once a route's chain has been built successfully, the built
state has __has_loaded__ set, so the guard in Route.invoke skips the build
and returns the state unchanged; and even a forced re-run of
_build_middleware returns the identical state — in particular every node's
ghost hook-execution counter is unchanged (no load hook re-runs) and the
entry point self.app is unchanged. -/
theorem buildMiddleware_idempotent (n : String) (s s' : RouteMwState)
    (h : Route.buildMiddleware n s = .ok s') :
    s'.hasLoaded = true ∧
    Route.ensureChainBuilt n s' = .ok s' ∧
    Route.buildMiddleware n s' = .ok s' := by
  unfold Route.buildMiddleware at h
  cases hb : buildChain (some n) s.mws with
  | error e => rw [hb] at h; exact absurd h (by simp)
  | ok p =>
    obtain ⟨mws, entry⟩ := p
    rw [hb] at h
    simp only [Except.ok.injEq] at h
    subst h
    have hidem := buildChain_idem (some n) s.mws mws entry hb
    refine ⟨rfl, by simp [Route.ensureChainBuilt], ?_⟩
    unfold Route.buildMiddleware
    simp only [hidem]

theorem buildMiddleware_idempotent_witness :
    Route.buildMiddleware "r" ⟨[⟨"M1", .middleware, false, false, 0, none⟩], none, false⟩ =
      .ok ⟨[⟨"M1", .middleware, true, false, 1, some .terminal⟩], some (.mw "M1"), true⟩ ∧
    (RouteMwState.hasLoaded
        ⟨[⟨"M1", .middleware, true, false, 1, some .terminal⟩], some (.mw "M1"), true⟩ = true ∧
      Route.ensureChainBuilt "r"
          ⟨[⟨"M1", .middleware, true, false, 1, some .terminal⟩], some (.mw "M1"), true⟩ =
        .ok ⟨[⟨"M1", .middleware, true, false, 1, some .terminal⟩], some (.mw "M1"), true⟩ ∧
      Route.buildMiddleware "r"
          ⟨[⟨"M1", .middleware, true, false, 1, some .terminal⟩], some (.mw "M1"), true⟩ =
        .ok ⟨[⟨"M1", .middleware, true, false, 1, some .terminal⟩], some (.mw "M1"), true⟩) :=
  ⟨rfl, buildMiddleware_idempotent "r"
    ⟨[⟨"M1", .middleware, false, false, 0, none⟩], none, false⟩
    ⟨[⟨"M1", .middleware, true, false, 1, some .terminal⟩], some (.mw "M1"), true⟩ rfl⟩

/-- Claim C5 (code bug, evaluated at the failing input): with middleware
list [M1, M2] where M1's load hook raises and M2's succeeds, the reverse
walk loads M2 first, then fails on M1 — but the raised
MiddlewareLoadException interpolates prev (routes.py line 224,
application.py line 147), so its message names M2, not the failing node M1;
the application-level builder additionally names no owner at all.  The
failing node is misidentified in both builders. -/
theorem buildMiddleware_error_names_prev_not_failing_node :
    Route.buildMiddleware "r"
        ⟨[⟨"M1", .middleware, false, true, 0, none⟩,
          ⟨"M2", .middleware, false, false, 0, none⟩], none, false⟩ =
      .error ⟨.mw "M2", some "r"⟩ ∧
    Audra.buildMiddleware
        [⟨"M1", .middleware, false, true, 0, none⟩,
          ⟨"M2", .middleware, false, false, 0, none⟩] =
      .error ⟨.mw "M2", none⟩ ∧
    SuccPtr.mw "M2" ≠ SuccPtr.mw "M1" :=
  ⟨rfl, rfl, by decide⟩

/-! ## Lifespan state machine (application.py Audra._lifespan_handler)

A lifecycle handler is abstracted by its repr and whether invoking it
raises; the loop consumes the received message stream in order and produces
the list of sent messages.  An exhausted stream stands for a loop blocked on
receive with nothing more arriving. -/

inductive LifespanReceive where
  | startup : LifespanReceive
  | shutdown : LifespanReceive
deriving DecidableEq, Repr

inductive LifespanSend where
  | startupComplete : LifespanSend
  | startupFailed (message : String) : LifespanSend
  | shutdownComplete : LifespanSend
  | shutdownFailed (message : String) : LifespanSend
deriving DecidableEq, Repr

structure LifespanHandler where
  name : String
  fails : Bool
deriving DecidableEq, Repr

/-- The diagnostic carried by the startup-failed message. -/
def startupFailMsg (h : LifespanHandler) : String :=
  "An error in the lifespan.startup handler " ++ h.name ++
    " prevented the application from starting."

/-- The diagnostic carried by the shutdown-failed message. -/
def shutdownFailMsg (h : LifespanHandler) : String :=
  "An error in the lifespan.shutdown handler " ++ h.name ++
    " prevented the application from closing gracefully."

/-- Handlers run in registration order; the first raising handler aborts
the phase. -/
def firstFailing (hs : List LifespanHandler) : Option LifespanHandler :=
  hs.find? (·.fails)

/-- Audra._lifespan_handler: on startup-request run the startup handlers —
on a failure send exactly one startup-failed and return (the loop ends, so
no later message is processed), otherwise send startup-complete and keep
receiving; on shutdown-request run the shutdown handlers — on a failure
send shutdown-failed and return, otherwise send shutdown-complete and
break. -/
def lifespanHandler (startupHs shutdownHs : List LifespanHandler) :
    List LifespanReceive → List LifespanSend
  | [] => []
  | .startup :: rest =>
    match firstFailing startupHs with
    | some h => [.startupFailed (startupFailMsg h)]
    | none => .startupComplete :: lifespanHandler startupHs shutdownHs rest
  | .shutdown :: _ =>
    match firstFailing shutdownHs with
    | some h => [.shutdownFailed (shutdownFailMsg h)]
    | none => [.shutdownComplete]

theorem firstFailing_isSome (hs : List LifespanHandler)
    (h : ∃ x ∈ hs, x.fails = true) : ∃ hf, firstFailing hs = some hf := by
  induction hs with
  | nil => obtain ⟨x, hx, _⟩ := h; exact absurd hx (List.not_mem_nil x)
  | cons a t ih =>
    by_cases ha : a.fails = true
    · exact ⟨a, by simp [firstFailing, List.find?, ha]⟩
    · obtain ⟨x, hx, hxf⟩ := h
      rcases List.mem_cons.mp hx with hxa | hxt
      · exact absurd (hxa ▸ hxf) ha
      · obtain ⟨hf, hhf⟩ := ih ⟨x, hxt, hxf⟩
        refine ⟨hf, ?_⟩
        simp only [firstFailing, List.find?] at hhf ⊢
        rw [show a.fails = false by simpa using ha]
        exact hhf

/-- Claim C6: if some registered startup handler raises, then on a startup
request the lifecycle loop emits exactly one startup-failed message carrying
a diagnostic string, no startup-complete message, and halts: whatever
messages follow — in particular any later shutdown request — contribute
nothing to the sent stream. -/
theorem lifespan_startup_failure_halts (su sd : List LifespanHandler)
    (rest : List LifespanReceive) (h : ∃ x ∈ su, x.fails = true) :
    ∃ hf, firstFailing su = some hf ∧
      lifespanHandler su sd (.startup :: rest) = [.startupFailed (startupFailMsg hf)] ∧
      LifespanSend.startupComplete ∉ lifespanHandler su sd (.startup :: rest) ∧
      (lifespanHandler su sd (.startup :: rest)).length = 1 := by
  obtain ⟨hf, hhf⟩ := firstFailing_isSome su h
  refine ⟨hf, hhf, ?_, ?_, ?_⟩ <;> simp [lifespanHandler, hhf]

theorem lifespan_startup_failure_halts_witness :
    ∃ hf, firstFailing [LifespanHandler.mk "boom" true] = some hf ∧
      lifespanHandler [LifespanHandler.mk "boom" true] []
          [.startup, .shutdown] = [.startupFailed (startupFailMsg hf)] ∧
      LifespanSend.startupComplete ∉ lifespanHandler [LifespanHandler.mk "boom" true] []
          [.startup, .shutdown] ∧
      (lifespanHandler [LifespanHandler.mk "boom" true] [] [.startup, .shutdown]).length = 1 :=
  lifespan_startup_failure_halts [LifespanHandler.mk "boom" true] []
    [.shutdown] (by decide)

/-! ## Responses (responses.py, headers.py)

Headers is a dict whose keys are casefolded at construction; raw() encodes
the pairs for the wire, which is injective on the strings involved, so the
sent header list is carried as the string pairs themselves.  Body bytes are
lists of byte values.  _process_headers can raise: when the media type is
textual and carries no charset, the source calls
Headers.append_to_field(name, value, separator=";") although append_to_field
is declared with two positional-only parameters and no separator, which is a
TypeError at runtime; the embedding surfaces that branch as an error. -/

inductive SendMessage where
  | responseStart (status : Nat) (headers : List (String × String)) : SendMessage
  | responseBody (body : List Nat) : SendMessage
deriving DecidableEq, Repr

inductive ResponseBody where
  | noneB : ResponseBody
  | bytesB (b : List Nat) : ResponseBody
  | strB (s : String) : ResponseBody
deriving DecidableEq, Repr

/-- _BaseResponse.encode: None becomes b"", bytes pass through, text is
encoded (the default charset utf-8 is modelled). -/
def encodeBody : ResponseBody → List Nat
  | .noneB => []
  | .bytesB b => b
  | .strB s => s.toUTF8.toList.map (fun b => b.toNat)

/-- Headers.__init__: a dict built from the items with casefolded keys. -/
def headersInit (hs : List (String × String)) : List (String × String) :=
  hs.foldl (fun acc e => dictSet acc (pyLower e.1) e.2) []

/-- Whether the first character list starts the second. -/
def listLeads : List Char → List Char → Bool
  | [], _ => true
  | _ :: _, [] => false
  | a :: as, b :: bs => decide (a = b) && listLeads as bs

/-- Whether the first character list occurs inside the second. -/
def listOccurs (pat : List Char) : List Char → Bool
  | [] => pat.isEmpty
  | c :: cs => listLeads pat (c :: cs) || listOccurs pat cs

/-- Python: pat in s. -/
def strContains (s pat : String) : Bool := listOccurs pat.toList s.toList

/-- Python: s.startswith(pat). -/
def strStartsWith (s pat : String) : Bool := listLeads pat.toList s.toList

/-- The fault raised out of _process_headers: append_to_field is invoked
with an unexpected keyword argument separator (responses.py line 71 against
headers.py line 44), a TypeError. -/
inductive HeaderProcessError where
  | appendToFieldTypeError : HeaderProcessError
deriving DecidableEq, Repr

/-- _BaseResponse._process_headers: compile the given headers into a
casefolded dict; when no content-length is set and the status is at least
200 and none of 204/304, set content-length to the body length; then, when
a media type is configured and no content-type was given, set content-type,
and for a textual media type without charset reach the faulting
append_to_field call. -/
def processHeaders (status : Nat) (bodyLen : Nat) (mediaType : Option String)
    (headers : Option (List (String × String))) :
    Except HeaderProcessError (List (String × String)) :=
  let compiled := headersInit (headers.getD [])
  let setCl := dictGet compiled "content-length"
  let setCt := dictGet compiled "content-type"
  let compiled :=
    if setCl = none ∧ 200 ≤ status ∧ status ≠ 204 ∧ status ≠ 304 then
      dictSet compiled "content-length" (toString bodyLen)
    else compiled
  match mediaType with
  | none => .ok compiled
  | some mt =>
    if mt = "" then .ok compiled
    else if setCt.isSome then .ok compiled
    else
      let compiled := dictSet compiled "content-type" mt
      if strStartsWith mt "text/" ∧ strContains (pyLower mt) "charset=" = false then
        .error .appendToFieldTypeError
      else .ok compiled

/-- A constructed response object: status, encoded body, processed
headers. -/
structure BaseResponse where
  status : Nat
  body : List Nat
  headers : List (String × String)
deriving DecidableEq, Repr

/-- _BaseResponse.__init__ for a response class with the given class-level
media type: encode the body, keep the status, process the headers. -/
def mkResponse (bodyIn : ResponseBody) (status : Nat)
    (headers : Option (List (String × String))) (mediaType : Option String) :
    Except HeaderProcessError BaseResponse :=
  let body := encodeBody bodyIn
  match processHeaders status body.length mediaType headers with
  | .error e => .error e
  | .ok h => .ok ⟨status, body, h⟩

/-- _BaseResponse.__call__: send exactly one response-start message with the
status and header list, then exactly one response-body message with the
body. -/
def responseCall (r : BaseResponse) : List SendMessage :=
  [.responseStart r.status r.headers, .responseBody r.body]

/-- Claim C7: a constructed response carrying body bytes B sends exactly one
response-start message (status and headers) followed by exactly one
response-body message whose body is B; and when the caller's headers carry
no content-length and the status is at least 200 and neither 204 nor 304,
the processed headers carry content-length equal to the length of B. -/
theorem response_send_roundtrip (B : List Nat) (status : Nat)
    (hdrs : List (String × String)) (mt : Option String) (r : BaseResponse)
    (hmk : mkResponse (.bytesB B) status (some hdrs) mt = .ok r)
    (hcl : dictGet (headersInit hdrs) "content-length" = none)
    (h200 : 200 ≤ status) (h204 : status ≠ 204) (h304 : status ≠ 304) :
    responseCall r = [.responseStart status r.headers, .responseBody B] ∧
    dictGet r.headers "content-length" = some (toString B.length) := by
  unfold mkResponse at hmk
  dsimp only at hmk
  cases hp : processHeaders status (encodeBody (.bytesB B)).length mt (some hdrs) with
  | error e => rw [hp] at hmk; exact absurd hmk (by simp)
  | ok hh =>
    rw [hp] at hmk
    simp only [Except.ok.injEq] at hmk
    subst hmk
    refine ⟨rfl, ?_⟩
    show dictGet hh "content-length" = some (toString B.length)
    unfold processHeaders at hp
    dsimp only at hp
    simp only [Option.getD_some] at hp
    rw [hcl] at hp
    rw [if_pos ⟨rfl, h200, h204, h304⟩] at hp
    have hB : encodeBody (.bytesB B) = B := rfl
    have hget : dictGet (dictSet (headersInit hdrs) "content-length"
        (toString (encodeBody (.bytesB B)).length)) "content-length" =
        some (toString B.length) := by
      rw [dictGet_dictSet_self, hB]
    cases mt with
    | none =>
      simp only [Except.ok.injEq] at hp
      rw [← hp]
      exact hget
    | some m =>
      dsimp only at hp
      by_cases hm : m = ""
      · rw [if_pos hm] at hp
        simp only [Except.ok.injEq] at hp
        rw [← hp]
        exact hget
      · rw [if_neg hm] at hp
        by_cases hct : (dictGet (headersInit hdrs) "content-type").isSome
        · rw [if_pos hct] at hp
          simp only [Except.ok.injEq] at hp
          rw [← hp]
          exact hget
        · rw [if_neg hct] at hp
          by_cases htext : strStartsWith m "text/" ∧ strContains (pyLower m) "charset=" = false
          · rw [if_pos htext] at hp
            exact absurd hp (by simp)
          · rw [if_neg htext] at hp
            simp only [Except.ok.injEq] at hp
            rw [← hp]
            rw [dictGet_dictSet_ne _ "content-type" "content-length" m (by decide)]
            exact hget

theorem response_send_roundtrip_witness :
    responseCall ⟨200, [104, 105], [("content-length", "2")]⟩ =
      [.responseStart 200 (BaseResponse.headers ⟨200, [104, 105], [("content-length", "2")]⟩),
        .responseBody [104, 105]] ∧
    dictGet (BaseResponse.headers ⟨200, [104, 105], [("content-length", "2")]⟩)
      "content-length" = some (toString ([104, 105] : List Nat).length) :=
  response_send_roundtrip [104, 105] 200 [] none ⟨200, [104, 105], [("content-length", "2")]⟩
    rfl (by decide) (by decide) (by decide) (by decide)

/-! ## Handler return-value adaptation (routes.py Route.__call__,
utils.py FALSEY_RESP)

A handler return value is one of the shapes the dispatch inspects.  The
source list FALSEY_RESP = [str, bytes, bytearray, memoryview, None] holds
four TYPE OBJECTS and None; the membership test resp in FALSEY_RESP
compares the returned VALUE against those elements with equality, and no
string, bytes or other plain value equals a type object, so only None is
ever a member.  Template-string returns are gated on Python 3.14 and are
outside this embedding. -/

inductive PyValue where
  | pyNone : PyValue
  | pyStr (s : String) : PyValue
  | pyBytes (b : List Nat) : PyValue
  | pyDict : PyValue
  | pyList : PyValue
  | pyTuple : PyValue
  | pyResponse (r : BaseResponse) : PyValue
  | pyOther : PyValue
deriving DecidableEq, Repr

/-- Python truthiness of the shapes above (container shapes stand for
non-empty containers; their truthiness is never reached by checkFalsey
because the membership test already fails for them). -/
def pyTruthy : PyValue → Bool
  | .pyNone => false
  | .pyStr s => !s.isEmpty
  | .pyBytes b => !b.isEmpty
  | .pyDict => true
  | .pyList => true
  | .pyTuple => true
  | .pyResponse _ => true
  | .pyOther => true

/-- resp in FALSEY_RESP: the value is compared against the four type objects
and None; only None matches. -/
def falseyRespContains : PyValue → Bool
  | .pyNone => true
  | _ => false

/-- Route._check_falsey: resp in FALSEY_RESP and not resp. -/
def checkFalsey (v : PyValue) : Bool :=
  falseyRespContains v && !pyTruthy v

/-- The response construction chosen by Route.__call__ for a handler return
value, before the chosen response object is sent. -/
inductive DispatchedResponse where
  | emptyResponse : DispatchedResponse
  | asIs (r : BaseResponse) : DispatchedResponse
  | plainText (v : PyValue) : DispatchedResponse
deriving DecidableEq, Repr

inductive RouteCallError where
  | httpInternalServerError : RouteCallError
deriving DecidableEq, Repr

/-- The dispatch of Route.__call__ on the awaited handler return value:
falsey-check first (EmptyResponse), then a response object as-is, then
dict/list/tuple (EmptyResponse pending the JSONResponse TODO in the
source), then str/bytes wrapped as PlainTextResponse, else
HTTPInternalServerError is raised. -/
def routeAdaptReturn (v : PyValue) : Except RouteCallError DispatchedResponse :=
  if checkFalsey v then .ok .emptyResponse
  else
    match v with
    | .pyResponse r => .ok (.asIs r)
    | .pyDict => .ok .emptyResponse
    | .pyList => .ok .emptyResponse
    | .pyTuple => .ok .emptyResponse
    | .pyStr s => .ok (.plainText (.pyStr s))
    | .pyBytes b => .ok (.plainText (.pyBytes b))
    | _ => .error .httpInternalServerError

/-- Claim C3 (code bug, evaluated at the failing input): the empty string is
a falsey text-like value, yet _check_falsey rejects it — the membership
test compares the value against the type objects in FALSEY_RESP, so only
None passes — and the dispatch wraps it in a PlainTextResponse instead of
the empty 204 response the claim (and the source's own falsey-shortcut
comment) prescribes.  None still maps to EmptyResponse, and a non-falsey
shape such as pyOther raises HTTPInternalServerError. -/
theorem routeAdaptReturn_empty_string_not_empty_response :
    pyTruthy (.pyStr "") = false ∧
    checkFalsey (.pyStr "") = false ∧
    routeAdaptReturn (.pyStr "") = .ok (.plainText (.pyStr "")) ∧
    routeAdaptReturn (.pyBytes []) = .ok (.plainText (.pyBytes [])) ∧
    routeAdaptReturn .pyNone = .ok .emptyResponse ∧
    routeAdaptReturn .pyOther = .error .httpInternalServerError ∧
    DispatchedResponse.plainText (.pyStr "") ≠ .emptyResponse :=
  ⟨rfl, rfl, rfl, rfl, rfl, rfl, by decide⟩
